import Mathlib

/-!
Shallow embedding of the bsf `oci` command core (cmd/oci/oci.go in this
repository, given as src/cmd/scan/model.go second part) and of the
hcl2nix configuration model (src/pkg/hcl2nix/config.go), together with
proofs settling the frozen specification claims about artifact
selection, platform resolution, tag mutation, build-target naming and
the Dockerfile-patch branch.

Go strings are modelled as Lean `String`; the Go standard-library
string helpers used by the source (`strings.Contains`, `strings.Split`,
`strings.Join`, `strings.HasSuffix`) are re-defined here over character
lists with their documented semantics so that proofs can proceed by
structural induction.
-/

/-- Decides whether the list `s` starts with the pattern `pat`. -/
def charsLead : List Char → List Char → Bool
  | [], _ => true
  | _ :: _, [] => false
  | c :: cs, d :: ds => c = d && charsLead cs ds

/-- Decides whether `pat` occurs as a contiguous sublist of `s`
(the semantics of Go `strings.Contains` on rune lists). -/
def charsHasSub (pat : List Char) : List Char → Bool
  | [] => pat.isEmpty
  | d :: ds => charsLead pat (d :: ds) || charsHasSub pat ds

/-- Go `strings.Contains s sub`. -/
def goContains (s sub : String) : Bool :=
  charsHasSub sub.toList s.toList

/-- Go `strings.HasSuffix s pat`. -/
def goHasSuffix (s pat : String) : Bool :=
  charsLead pat.toList.reverse s.toList.reverse

/-- Splits a character list around every occurrence of the separator
character (the semantics of Go `strings.Split` for a one-character
separator: the result always has one more part than there are
separator occurrences). -/
def splitOnChar (sep : Char) : List Char → List (List Char)
  | [] => [[]]
  | c :: rest =>
    if c = sep then [] :: splitOnChar sep rest
    else
      match splitOnChar sep rest with
      | [] => [[c]]
      | p :: ps => (c :: p) :: ps

/-- Go `strings.Split s sep` for a one-character separator. -/
def goSplit (s : String) (sep : Char) : List String :=
  (splitOnChar sep s.toList).map (fun l => String.mk l)

/-- Go `strings.Join parts sep`. -/
def goJoin : List String → String → String
  | [], _ => ""
  | [s], _ => s
  | s :: t :: rest, sep => s ++ sep ++ goJoin (t :: rest) sep

/-- Package parameters, from src/pkg/hcl2nix/config.go (`Packages`). -/
structure Packages where
  Development : List String
  Runtime : List String
  deriving Repr, DecidableEq

/-- GitHub release parameters, from src/pkg/hcl2nix/config.go
(`GitHubRelease`). -/
structure GitHubRelease where
  Owner : String
  Repo : String
  App : String
  Dir : String
  deriving Repr, DecidableEq

/-- Rust app block; field set taken from its use in
src/pkg/nix/template/rust.go. -/
structure RustApp where
  CrateName : String
  RustVersion : String
  RustToolChain : String
  RustChannel : String
  RustProfile : String
  ExtraRustComponents : List String
  Release : Bool
  deriving Repr, DecidableEq

/-- Modelled from the spec: the Go module app block referenced by the
Config root; its defining file is not under src/ and no claim inspects
its fields, so it is left without fields. -/
structure GoModule where
  deriving Repr, DecidableEq

/-- Modelled from the spec: the Poetry app block referenced by the
Config root; its defining file is not under src/ and no claim inspects
its fields. -/
structure PoetryApp where
  deriving Repr, DecidableEq

/-- Modelled from the spec: the JS npm app block referenced by the
Config root; its defining file is not under src/ and no claim inspects
its fields. -/
structure JsNpmApp where
  deriving Repr, DecidableEq

/-- Modelled from the spec: one config-file overlay block referenced by
the Config root; its defining file is not under src/ and no claim
inspects its fields. -/
structure ConfigFiles where
  deriving Repr, DecidableEq

/-- Modelled from the spec: one OCI artifact block (its defining Go
file is not under src/). The spec gives the `Name` field (the image
reference, possibly `repo:tag`) and the `Artifact` field (the label
used to select it from the CLI); the remaining ecosystem-specific
build parameters, which the embedded functions never read, are
collected in `ExtraParams`. -/
structure OCIArtifact where
  Name : String
  Artifact : String
  ExtraParams : List String
  deriving Repr, DecidableEq

/-- Root configuration document, from src/pkg/hcl2nix/config.go
(`Config`). -/
structure Config where
  Packages : Packages
  GoModule : Option GoModule
  PoetryApp : Option PoetryApp
  RustApp : Option RustApp
  JsNpmApp : Option JsNpmApp
  OCIArtifact : List OCIArtifact
  ConfigFiles : List ConfigFiles
  GitHubReleases : List GitHubRelease
  deriving Repr, DecidableEq

/-- The fixed supported-platform allowlist, from the `oci` command
source (`supportedPlatforms`). -/
def supportedPlatforms : List String := ["linux/amd64", "linux/arm64"]

/-- Embedding of `getNewName` from the `oci` command source: if the
artifact name contains a `:` the part before the first `:` is kept and
the new tag appended after a `:`; otherwise `:` and the tag are
appended to the whole name.  The Go function returns a `(string,
error)` pair whose error is always nil; this is rendered as `Except`. -/
def getNewName (artifact : OCIArtifact) (tag : String) : Except String String :=
  if goContains artifact.Name ":" then
    let parts := goSplit artifact.Name ':'
    match parts with
    | p0 :: _ => Except.ok (p0 ++ ":" ++ tag)
    | [] => Except.ok (artifact.Name ++ ":" ++ tag)
  else
    Except.ok (artifact.Name ++ ":" ++ tag)

/-- Statement of the spec's description of the new-name computation:
the part of the name before the `repo:tag` separator (the first `:`),
then the separator and the new tag, when the name contains a
separator; otherwise the name with separator and tag appended.  Used
only to compare `getNewName` against the spec's words. -/
def specNewName (name tag : String) : String :=
  if goContains name ":" then
    String.mk (name.toList.takeWhile (fun c => !(c = ':'))) ++ ":" ++ tag
  else
    name ++ ":" ++ tag

/-- Embedding of `genOCIAttrName` from the `oci` command source.  The
Go function reads the package-global `devDeps` flag; it is passed here
as the explicit first parameter.  The `artifact` parameter is present
in the Go signature and never read, which the embedding preserves. -/
def genOCIAttrName (devDeps : Bool) (env platform : String) (artifact : OCIArtifact) : String :=
  let arch :=
    if platform = "linux/amd64" then "x86_64-linux"
    else if platform = "linux/arm64" then "aarch64-linux"
    else "unknown"
  let base := "bsf/.#ociImages." ++ arch ++ ".ociImage_" ++ env ++ "_"
  if env = "pkgs" then
    if devDeps then base ++ "dev-as-dir" else base ++ "runtime-as-dir"
  else
    if devDeps then base ++ "app_with_dev-as-dir" else base ++ "app-as-dir"

/-- The error message produced when an artifact fails its own
validation inside `ProcessPlatformAndConfig`. -/
def configInvalidMsg (name errStr : String) : String :=
  "Config for export block " ++ name ++ " is invalid\n Error: " ++ errStr

/-- The error message produced when no artifact label matches the
requested environment name inside `ProcessPlatformAndConfig`. -/
def noSuchEnvMsg (envNames : List String) : String :=
  "error: No such environment found. Valid oci environment that can be built are: "
    ++ goJoin envNames ", "

/-- The error message produced when the platform check fails inside
`ProcessPlatformAndConfig`.  The Go source interpolates the
package-global `platform` variable (not its `plat` parameter) into the
message, so the global's value is a parameter here. -/
def platformNotSupportedMsg (globalPlatform : String) : String :=
  "Platform " ++ globalPlatform ++ " is not supported. Supported platforms are "
    ++ goJoin supportedPlatforms ", "

/-- The artifact loop of `ProcessPlatformAndConfig`: walk the
artifacts in document order; validate each against the full config
(the `OCIArtifact.Validate` method is not under src/ and is passed as
the function `validate`); abort with the validation message on the
first failure; return the first artifact whose label equals `envName`;
collect the labels of non-matching artifacts into `envNames` for the
final not-found message. -/
def findArtifactLoop (validate : OCIArtifact → Config → Option String)
    (conf : Config) (envName : String) :
    List OCIArtifact → List String → Except String OCIArtifact
  | [], envNames => Except.error (noSuchEnvMsg envNames)
  | ec :: rest, envNames =>
    match validate ec conf with
    | some errStr => Except.error (configInvalidMsg ec.Name errStr)
    | none =>
      if ec.Artifact = envName then Except.ok ec
      else findArtifactLoop validate conf envName rest (envNames ++ [ec.Artifact])

/-- Embedding of `ProcessPlatformAndConfig` from the `oci` command
source.  `validate` stands for the `OCIArtifact.Validate` method and
`fp` for `platformutils.FindPlatform` (host auto-detection), neither
of which is under src/; `globalPlatform` is the package-global
`platform` flag variable that the Go source interpolates into the
platform error message. -/
def ProcessPlatformAndConfig (validate : OCIArtifact → Config → Option String)
    (fp : String → String × String) (globalPlatform : String)
    (conf : Config) (plat envName : String) :
    Except String (OCIArtifact × String) :=
  let plat :=
    if plat = "" then
      let (tos, tarch) := fp plat
      tos ++ "/" ++ tarch
    else plat
  let pfound := supportedPlatforms.any (fun sp => goContains plat sp)
  if pfound then
    match findArtifactLoop validate conf envName conf.OCIArtifact [] with
    | Except.error e => Except.error e
    | Except.ok artifact => Except.ok (artifact, plat)
  else
    Except.error (platformNotSupportedMsg globalPlatform)

/-- First-match in-place replacement step of `ModifyConfig` from
src/pkg/hcl2nix/config.go: replace the first artifact whose `Name`
equals `oldName` with `artifact`, reporting whether a replacement
happened. -/
def replaceFirstArtifact (oldName : String) (artifact : OCIArtifact) :
    List OCIArtifact → List OCIArtifact × Bool
  | [] => ([], false)
  | a :: rest =>
    if a.Name = oldName then (artifact :: rest, true)
    else
      let (r, u) := replaceFirstArtifact oldName artifact rest
      (a :: r, u)

/-- Embedding of `ModifyConfig` from src/pkg/hcl2nix/config.go.  The
Go function mutates the config through a pointer and, only when a
replacement occurred, serializes the whole document (`WriteConfig`,
whose HCL encoder is external and is passed as `serialize`) and
overwrites `bsf.hcl` (`writeF`).  The result is the in-memory config
after the call, whether `bsf.hcl` was successfully written, and the
returned error if any. -/
def ModifyConfig (serialize : Config → Except String String)
    (writeF : String → String → Except String Unit)
    (oldName : String) (artifact : OCIArtifact) (config : Config) :
    Config × Bool × Option String :=
  let (arts, updated) := replaceFirstArtifact oldName artifact config.OCIArtifact
  let config := { config with OCIArtifact := arts }
  if updated then
    match serialize config with
    | Except.error e => (config, false, some e)
    | Except.ok buf =>
      match writeF "bsf.hcl" buf with
      | Except.error e => (config, false, some e)
      | Except.ok _ => (config, true, none)
  else
    (config, false, none)

/-- Modelled from the spec: the lock-file application record (the
`LockFile` struct of the hcl2nix package is not under src/); the spec
requires at minimum an application name. -/
structure LockApp where
  Name : String
  deriving Repr, DecidableEq

/-- Modelled from the spec: the lock file, a parsed snapshot of the
Builder's resolved dependency set, with an `App.Name` used to look up
the runtime closure. -/
structure LockFile where
  App : LockApp
  deriving Repr, DecidableEq

/-- Modelled from the spec: the application details derived from the
Builder's output; the command overwrites its `Name` with the selected
artifact's name. -/
structure AppDetails where
  Name : String
  deriving Repr, DecidableEq

/-- Modelled from the spec: the runtime dependency closure graph,
treated by this core as an opaque value handed between external
calls. -/
structure ClosureGraph where
  deriving Repr, DecidableEq

/-- Observable actions of one `OCICmd` Run invocation, in order of
occurrence: styled prints, the tag/name mutation of the configuration,
successful file writes, the Builder invocation with its build
attribute, and the distribution steps. -/
inductive Event where
  | hintMsg (s : String)
  | errorMsg (s : String)
  | successMsg (s : String)
  | highlightMsg (s : String)
  | appliedTagMutation
  | wroteFile (path : String)
  | invokedBuilder (attr : String)
  | generatedArtifacts
  | loadedDocker
  | loadedPodman
  | pushedImage
  deriving Repr, DecidableEq

/-- How one `OCICmd` Run invocation ends: `exited c` is an `os.Exit c`
call, `finished` is a normal return (process exit code 0). -/
inductive Outcome where
  | exited (code : Nat)
  | finished
  deriving Repr, DecidableEq

/-- The command-line flag variables of the `oci` command (package
globals in the Go source). -/
structure Flags where
  platform : String
  output : String
  tag : String
  path : String
  push : Bool
  loadDocker : Bool
  loadPodman : Bool
  devDeps : Bool
  dfSwap : Bool
  deriving Repr, DecidableEq

/-- Results of the external calls one `OCICmd` Run invocation may
perform.  Each field stands for a collaborator that is outside this
core (or outside src/): config parsing, artifact validation, host
platform detection, HCL serialization, the file system, the Dockerfile
rewriter, workspace preparation, git bookkeeping, the Builder, lock
file parsing, closure-graph retrieval, artifact generation, and the
container runtime clients. -/
structure RunEnv where
  readHclFile : Except String Config
  validate : OCIArtifact → Config → Option String
  findPlatform : String → String × String
  serializeConfig : Config → Except String String
  writeFile : String → String → Except String Unit
  readFile : String → Except String String
  modifyDockerfile : String → Bool → String → Except String (List String)
  getBSFInitializers : Except String Unit
  generate : Except String Unit
  gitAdd : String → Except String Unit
  gitIgnore : String → Except String Unit
  nixBuild : String → String → Except String Unit
  readLock : Except String String
  unmarshalLock : String → Except String LockFile
  getRuntimeClosureGraph : String → String → String → Except String (AppDetails × ClosureGraph)
  generateArtifacts : String → String → LockFile → AppDetails → ClosureGraph → String → String → Except String Unit
  getCurrentContext : Except String String
  readContextEndpoints : Except String (List (String × String))
  loadDockerImage : String → String → String → Except String Unit
  loadPodmanImage : String → String → Except String Unit
  pushImage : String → String → Except String Unit

/-- Assoc-list lookup standing for the Go map read
`contextEP[currentContext]`. -/
def lookupEP (m : List (String × String)) (k : String) : Option String :=
  (m.find? (fun p => p.1 = k)).map (fun p => p.2)

/-- Embedding of `modifyDockerfileWithTag` from the `oci` command
source: derive the Dockerfile path from the `--path` flag, open and
read the file, rewrite its lines, and write the result back; a
`wroteFile` event records a successful write. -/
def modifyDockerfileWithTag (env : RunEnv) (path tag : String) (devDeps : Bool) :
    List Event × Except String Unit :=
  let dockerfilePath := if ¬(path = "") then path ++ "/Dockerfile" else "./Dockerfile"
  match env.readFile dockerfilePath with
  | Except.error e => ([], Except.error e)
  | Except.ok file =>
    match env.modifyDockerfile file devDeps tag with
    | Except.error e => ([], Except.error e)
    | Except.ok resLines =>
      match env.writeFile dockerfilePath (goJoin resLines "\n") with
      | Except.error e => ([], Except.error e)
      | Except.ok _ => ([Event.wroteFile dockerfilePath], Except.ok ())

/-- Prefixes already-produced events onto the result of the rest of a
run. -/
def withEvents (pre : List Event) (r : List Event × Outcome) : List Event × Outcome :=
  (pre ++ r.1, r.2)

/-- States 4 to 8 of the `OCICmd` Run function (workspace
preparation, Builder invocation, lock and closure reading, artifact
generation, and the three distribution branches), embedded from the
`oci` command source.  `plat` is the resolved platform held in the
package-global `platform` variable at this point. -/
def buildPipeline (env : RunEnv) (fl : Flags) (artifact : OCIArtifact) (plat : String) :
    List Event × Outcome :=
  match env.getBSFInitializers with
  | Except.error e => ([Event.errorMsg e], Outcome.exited 1)
  | Except.ok _ =>
  match env.generate with
  | Except.error e => ([Event.errorMsg e], Outcome.exited 1)
  | Except.ok _ =>
  let output := if fl.output = "" then "bsf-result" else fl.output
  match env.gitAdd "bsf/" with
  | Except.error e => ([Event.errorMsg e], Outcome.exited 1)
  | Except.ok _ =>
  match env.gitIgnore (output ++ "/") with
  | Except.error e => ([Event.errorMsg e], Outcome.exited 1)
  | Except.ok _ =>
  let symlink := "/result"
  let attr := genOCIAttrName fl.devDeps artifact.Artifact plat artifact
  match env.nixBuild (output ++ symlink) attr with
  | Except.error e => ([Event.invokedBuilder attr, Event.errorMsg e], Outcome.exited 1)
  | Except.ok _ =>
  withEvents [Event.invokedBuilder attr, Event.highlightMsg "Generating artifacts..."] <|
  match env.readLock with
  | Except.error e => ([Event.errorMsg e], Outcome.exited 1)
  | Except.ok lockData =>
  match env.unmarshalLock lockData with
  | Except.error e => ([Event.errorMsg e], Outcome.exited 1)
  | Except.ok lockFile =>
  match env.getRuntimeClosureGraph lockFile.App.Name output symlink with
  | Except.error e => ([Event.errorMsg e], Outcome.exited 1)
  | Except.ok (appDetails, graph) =>
  let appDetails := { appDetails with Name := artifact.Name }
  let (tos, tarch) := env.findPlatform plat
  match env.generateArtifacts output symlink lockFile appDetails graph tos tarch with
  | Except.error e => ([Event.errorMsg e], Outcome.exited 1)
  | Except.ok _ =>
  withEvents [Event.generatedArtifacts,
    Event.successMsg ("Build completed successfully, please check the " ++ output ++ " directory")] <|
  (fun afterDocker =>
    if fl.loadDocker then
      let (currentContext, exp1) :=
        match env.getCurrentContext with
        | Except.error _ => ("", false)
        | Except.ok c => (c, true)
      let (contextEP, expectedInstall) :=
        match env.readContextEndpoints with
        | Except.error _ => ([], false)
        | Except.ok m => (m, exp1)
      let currentContext := if currentContext = "" then "default" else currentContext
      let ep :=
        match lookupEP contextEP currentContext with
        | none => "unix:///var/run/docker.sock"
        | some e => e
      match env.loadDockerImage ep (output ++ "/result") artifact.Name with
      | Except.error e =>
        ([Event.highlightMsg "Loading image to docker daemon...", Event.errorMsg e]
          ++ (if expectedInstall then [] else [Event.errorMsg "Is Docker installed?"]),
         Outcome.exited 1)
      | Except.ok _ =>
        withEvents [Event.highlightMsg "Loading image to docker daemon...",
          Event.loadedDocker,
          Event.successMsg ("Image " ++ artifact.Name ++ " loaded to docker daemon")]
          afterDocker
    else afterDocker) <|
  (fun afterPodman =>
    if fl.loadPodman then
      match env.loadPodmanImage (output ++ "/result") artifact.Name with
      | Except.error e =>
        ([Event.highlightMsg "Loading image to podman...", Event.errorMsg e], Outcome.exited 1)
      | Except.ok _ =>
        withEvents [Event.highlightMsg "Loading image to podman...",
          Event.loadedPodman,
          Event.successMsg ("Image " ++ artifact.Name ++ " loaded to podman")]
          afterPodman
    else afterPodman) <|
  (if fl.push then
    match env.pushImage (output ++ "/result") artifact.Name with
    | Except.error e =>
      ([Event.highlightMsg "Pushing image to registry...", Event.errorMsg e], Outcome.exited 1)
    | Except.ok _ =>
      ([Event.highlightMsg "Pushing image to registry...",
        Event.pushedImage,
        Event.successMsg ("Image " ++ artifact.Name ++ " pushed to registry")],
       Outcome.finished)
  else ([], Outcome.finished))

/-- Embedding of the `OCICmd` Run function from the `oci` command
source: argument check, config load, platform and artifact resolution,
the tag/name mutation branch (taken only when a tag is supplied and
Dockerfile-patch mode is off), the Dockerfile-patch branch (which
always terminates with exit code 1), and otherwise the build
pipeline. -/
def ociCmdRun (env : RunEnv) (fl : Flags) (args : List String) : List Event × Outcome :=
  match args with
  | [] =>
    ([Event.hintMsg "run `bsf oci <environment name>` to build an OCI image"], Outcome.exited 1)
  | envName :: _ =>
    match env.readHclFile with
    | Except.error e => ([Event.errorMsg e], Outcome.exited 1)
    | Except.ok conf =>
      match ProcessPlatformAndConfig env.validate env.findPlatform fl.platform conf fl.platform envName with
      | Except.error e => ([Event.errorMsg e], Outcome.exited 1)
      | Except.ok (artifact0, p) =>
        let k : OCIArtifact → List Event × Outcome := fun artifact =>
          if fl.dfSwap then
            if ¬(fl.tag = "") then
              match modifyDockerfileWithTag env fl.path fl.tag fl.devDeps with
              | (evs, Except.error e) => (evs ++ [Event.errorMsg e], Outcome.exited 1)
              | (evs, Except.ok _) =>
                (evs ++ [Event.successMsg ("dockerfile succesfully updated with tag: " ++ fl.tag)],
                 Outcome.exited 1)
            else
              ([Event.hintMsg "use --tag flag to define a tag"], Outcome.exited 1)
          else buildPipeline env fl artifact p
        if ¬(fl.tag = "") ∧ fl.dfSwap = false then
          match getNewName artifact0 fl.tag with
          | Except.error e => ([Event.errorMsg e], Outcome.exited 1)
          | Except.ok newName =>
            let oldName := artifact0.Name
            let artifact1 := { artifact0 with Name := newName }
            match ModifyConfig env.serializeConfig env.writeFile oldName artifact1 conf with
            | (_, wrote, some e) =>
              ([Event.appliedTagMutation]
                ++ (if wrote then [Event.wroteFile "bsf.hcl"] else [])
                ++ [Event.errorMsg e], Outcome.exited 1)
            | (_, wrote, none) =>
              withEvents ([Event.appliedTagMutation]
                ++ (if wrote then [Event.wroteFile "bsf.hcl"] else []))
                (k artifact1)
        else k artifact0

/-- A concrete artifact used in concrete evaluations: image reference
"svc:latest", selection label "svc". -/
def svcArtifact : OCIArtifact := ⟨"svc:latest", "svc", []⟩

/-- A concrete artifact whose validation is made to fail in concrete
evaluations. -/
def badArtifact : OCIArtifact := ⟨"bad", "badlabel", []⟩

/-- A configuration document holding the given artifact list and
nothing else. -/
def mkConf (arts : List OCIArtifact) : Config :=
  ⟨⟨[], []⟩, none, none, none, none, arts, [], []⟩

/-- A validation oracle under which every artifact passes. -/
def validateOK : OCIArtifact → Config → Option String := fun _ _ => none

/-- A validation oracle under which exactly the artifacts named "bad"
fail, with message "boom". -/
def validateBad : OCIArtifact → Config → Option String :=
  fun a _ => if a.Name = "bad" then some "boom" else none

/-- A host-platform detector reporting linux/amd64. -/
def hostAmd64 : String → String × String := fun _ => ("linux", "amd64")

/-- An external-call environment in which every collaborator
succeeds; the configuration document holds the single artifact
`svcArtifact`. -/
def okEnv : RunEnv where
  readHclFile := Except.ok (mkConf [svcArtifact])
  validate := validateOK
  findPlatform := hostAmd64
  serializeConfig := fun _ => Except.ok "serialized"
  writeFile := fun _ _ => Except.ok ()
  readFile := fun _ => Except.ok "FROM base"
  modifyDockerfile := fun _ _ _ => Except.ok ["FROM base"]
  getBSFInitializers := Except.ok ()
  generate := Except.ok ()
  gitAdd := fun _ => Except.ok ()
  gitIgnore := fun _ => Except.ok ()
  nixBuild := fun _ _ => Except.ok ()
  readLock := Except.ok "lock"
  unmarshalLock := fun _ => Except.ok ⟨⟨"app"⟩⟩
  getRuntimeClosureGraph := fun _ _ _ => Except.ok (⟨"app"⟩, ⟨⟩)
  generateArtifacts := fun _ _ _ _ _ _ _ => Except.ok ()
  getCurrentContext := Except.ok "default"
  readContextEndpoints := Except.ok []
  loadDockerImage := fun _ _ _ => Except.ok ()
  loadPodmanImage := fun _ _ => Except.ok ()
  pushImage := fun _ _ => Except.ok ()

/-- The environment `okEnv` except that reading the configuration
document fails. -/
def noConfigEnv : RunEnv :=
  { okEnv with readHclFile := Except.error "open bsf.hcl: no such file or directory" }

lemma charsLead_append (pat s t : List Char) (h : charsLead pat s = true) :
    charsLead pat (s ++ t) = true := by
  induction pat generalizing s with
  | nil => simp [charsLead]
  | cons c cs ih =>
    cases s with
    | nil => simp [charsLead] at h
    | cons d ds =>
      simp only [charsLead, Bool.and_eq_true] at h ⊢
      exact ⟨h.1, ih ds h.2⟩

lemma charsHasSub_nil (s : List Char) : charsHasSub [] s = true := by
  cases s with
  | nil => rfl
  | cons d ds => simp [charsHasSub, charsLead]

lemma charsHasSub_append_left (pat a b : List Char) (h : charsHasSub pat a = true) :
    charsHasSub pat (a ++ b) = true := by
  induction a with
  | nil =>
    simp [charsHasSub, List.isEmpty_iff] at h
    subst h
    exact charsHasSub_nil b
  | cons c cs ih =>
    simp only [charsHasSub, Bool.or_eq_true] at h
    rcases h with h | h
    · simp only [List.cons_append, charsHasSub, Bool.or_eq_true]
      exact Or.inl (charsLead_append pat (c :: cs) b h)
    · simp only [List.cons_append, charsHasSub, Bool.or_eq_true]
      exact Or.inr (ih h)

lemma charsHasSub_append_right (pat a b : List Char) (h : charsHasSub pat b = true) :
    charsHasSub pat (a ++ b) = true := by
  induction a with
  | nil => simpa using h
  | cons c cs ih =>
    simp only [List.cons_append, charsHasSub, Bool.or_eq_true]
    exact Or.inr ih

lemma string_append_toList (a b : String) : (a ++ b).toList = a.toList ++ b.toList := rfl

lemma splitOnChar_head (sep : Char) (l : List Char) :
    ∃ ps, splitOnChar sep l = (l.takeWhile fun c => !(c = sep)) :: ps := by
  induction l with
  | nil => exact ⟨[], rfl⟩
  | cons c rest ih =>
    by_cases h : c = sep
    · refine ⟨splitOnChar sep rest, ?_⟩
      simp [splitOnChar, h, List.takeWhile]
    · obtain ⟨ps, hps⟩ := ih
      refine ⟨ps, ?_⟩
      simp [splitOnChar, h, hps, List.takeWhile]

/-- Claim C3: for every artifact name and tag, `getNewName` keeps the
part of the name before the `repo:tag` separator and replaces what
follows it with the new tag when the name contains a separator, and
appends the separator and tag otherwise; in particular name "app" with
tag "v2" yields "app:v2" and name "app:v1" with tag "v2" yields
"app:v2". -/
theorem getNewName_replacesOrAppendsTag :
    ∀ (artifact : OCIArtifact) (tag : String),
      getNewName artifact tag = Except.ok (specNewName artifact.Name tag) ∧
      getNewName ⟨"app", "pkgs", []⟩ "v2" = Except.ok "app:v2" ∧
      getNewName ⟨"app:v1", "pkgs", []⟩ "v2" = Except.ok "app:v2" := by
  intro artifact tag
  refine ⟨?_, rfl, rfl⟩
  unfold getNewName specNewName
  by_cases hc : goContains artifact.Name ":" = true
  · rw [if_pos hc, if_pos hc]
    obtain ⟨ps, hps⟩ := splitOnChar_head ':' artifact.Name.toList
    unfold goSplit
    rw [hps]
    simp only [List.map_cons]
  · rw [if_neg hc, if_neg hc]

/-- Claim C10: the build attribute name computed by `genOCIAttrName`
does not depend on the `OCIArtifact` value passed as its artifact
argument; any two artifacts yield the same name for the same ecosystem
label, platform string, and development-dependencies flag. -/
theorem genOCIAttrName_ignores_artifact :
    ∀ (devDeps : Bool) (env platform : String) (a1 a2 : OCIArtifact),
      genOCIAttrName devDeps env platform a1 = genOCIAttrName devDeps env platform a2 :=
  fun _ _ _ _ _ => rfl

lemma goContains_append_l (a b sub : String) (h : goContains a sub = true) :
    goContains (a ++ b) sub = true := by
  unfold goContains at h ⊢
  rw [string_append_toList]
  exact charsHasSub_append_left _ _ _ h

lemma goContains_append_r (a b sub : String) (h : goContains b sub = true) :
    goContains (a ++ b) sub = true := by
  unfold goContains at h ⊢
  rw [string_append_toList]
  exact charsHasSub_append_right _ _ _ h

lemma goHasSuffix_append (a b pat : String) (h : goHasSuffix b pat = true) :
    goHasSuffix (a ++ b) pat = true := by
  unfold goHasSuffix at h ⊢
  rw [string_append_toList, List.reverse_append]
  exact charsLead_append _ _ _ h

/-- Claim C4: `genOCIAttrName` is total and deterministic; platform
"linux/amd64" yields an attribute path containing the architecture
segment "x86_64-linux", "linux/arm64" yields "aarch64-linux", any
other platform yields the segment "unknown", and with ecosystem label
"pkgs" the suffix is "dev-as-dir" when the development-dependencies
flag is set and "runtime-as-dir" when it is not. -/
theorem genOCIAttrName_mapping :
    ∀ (env platform : String) (devDeps : Bool) (artifact : OCIArtifact),
      goContains (genOCIAttrName devDeps env "linux/amd64" artifact) "x86_64-linux" = true ∧
      goContains (genOCIAttrName devDeps env "linux/arm64" artifact) "aarch64-linux" = true ∧
      (¬(platform = "linux/amd64") → ¬(platform = "linux/arm64") →
        goContains (genOCIAttrName devDeps env platform artifact) "unknown" = true) ∧
      (devDeps = true →
        goHasSuffix (genOCIAttrName devDeps "pkgs" platform artifact) "dev-as-dir" = true) ∧
      (devDeps = false →
        goHasSuffix (genOCIAttrName devDeps "pkgs" platform artifact) "runtime-as-dir" = true) := by
  intro env platform devDeps artifact
  refine ⟨?_, ?_, ?_, ?_, ?_⟩
  · by_cases he : env = "pkgs" <;> by_cases hd : devDeps <;>
      simp [genOCIAttrName, he, hd] <;>
      repeat first
        | decide
        | apply goContains_append_l
  · by_cases he : env = "pkgs" <;> by_cases hd : devDeps <;>
      simp [genOCIAttrName, he, hd] <;>
      repeat first
        | decide
        | apply goContains_append_l
  · intro hp1 hp2
    by_cases he : env = "pkgs" <;> by_cases hd : devDeps <;>
      simp [genOCIAttrName, he, hd, hp1, hp2] <;>
      repeat first
        | decide
        | apply goContains_append_l
  · intro hd
    by_cases hp1 : platform = "linux/amd64" <;> by_cases hp2 : platform = "linux/arm64" <;>
      simp [genOCIAttrName, hd, hp1, hp2] <;> decide
  · intro hd
    by_cases hp1 : platform = "linux/amd64" <;> by_cases hp2 : platform = "linux/arm64" <;>
      simp [genOCIAttrName, hd, hp1, hp2] <;> decide

/-- Witness for claim C4 at concrete inputs: label "pkgs", an
unmapped platform, development dependencies on. -/
theorem genOCIAttrName_mapping_witness :
    goContains (genOCIAttrName true "pkgs" "windows/386" ⟨"app", "pkgs", []⟩) "unknown" = true ∧
    goHasSuffix (genOCIAttrName true "pkgs" "linux/amd64" ⟨"app", "pkgs", []⟩) "dev-as-dir" = true ∧
    goHasSuffix (genOCIAttrName false "pkgs" "linux/arm64" ⟨"app", "pkgs", []⟩) "runtime-as-dir" = true := by
  have h1 := genOCIAttrName_mapping "pkgs" "windows/386" true ⟨"app", "pkgs", []⟩
  have h2 := genOCIAttrName_mapping "pkgs" "linux/amd64" true ⟨"app", "pkgs", []⟩
  have h3 := genOCIAttrName_mapping "pkgs" "linux/arm64" false ⟨"app", "pkgs", []⟩
  exact ⟨h1.2.2.1 (by decide) (by decide), h2.2.2.2.1 rfl, h3.2.2.2.2 rfl⟩

lemma findArtifactLoop_firstFailure
    (validate : OCIArtifact → Config → Option String) (conf : Config) (envName : String)
    (pre : List OCIArtifact) (bad : OCIArtifact) (post : List OCIArtifact)
    (acc : List String) (m : String)
    (hpre : ∀ a ∈ pre, validate a conf = none ∧ ¬(a.Artifact = envName))
    (hbad : validate bad conf = some m) :
    findArtifactLoop validate conf envName (pre ++ bad :: post) acc =
      Except.error (configInvalidMsg bad.Name m) := by
  induction pre generalizing acc with
  | nil => simp [findArtifactLoop, hbad]
  | cons a rest ih =>
    have ha := hpre a (List.mem_cons_self a rest)
    simp only [List.cons_append, findArtifactLoop, ha.1, ha.2, if_false]
    exact ih _ (fun x hx => hpre x (List.mem_cons_of_mem a hx))

lemma findArtifactLoop_noMatch
    (validate : OCIArtifact → Config → Option String) (conf : Config) (envName : String)
    (l : List OCIArtifact) (acc : List String)
    (hval : ∀ a ∈ l, validate a conf = none)
    (hmatch : ∀ a ∈ l, ¬(a.Artifact = envName)) :
    findArtifactLoop validate conf envName l acc =
      Except.error (noSuchEnvMsg (acc ++ l.map (fun a => a.Artifact))) := by
  induction l generalizing acc with
  | nil => simp [findArtifactLoop]
  | cons a rest ih =>
    have hv := hval a (List.mem_cons_self a rest)
    have hm := hmatch a (List.mem_cons_self a rest)
    simp only [findArtifactLoop, hv, hm, if_false]
    rw [ih _ (fun x hx => hval x (List.mem_cons_of_mem a hx))
      (fun x hx => hmatch x (List.mem_cons_of_mem a hx))]
    simp

lemma findArtifactLoop_ok
    (validate : OCIArtifact → Config → Option String) (conf : Config) (envName : String)
    (l : List OCIArtifact) (acc : List String) (artifact : OCIArtifact)
    (h : findArtifactLoop validate conf envName l acc = Except.ok artifact) :
    ∃ pre post, l = pre ++ artifact :: post ∧ artifact.Artifact = envName ∧
      validate artifact conf = none ∧
      ∀ a ∈ pre, validate a conf = none ∧ ¬(a.Artifact = envName) := by
  induction l generalizing acc with
  | nil => simp [findArtifactLoop] at h
  | cons a rest ih =>
    cases hv : validate a conf with
    | some s => simp [findArtifactLoop, hv] at h
    | none =>
      by_cases hm : a.Artifact = envName
      · have : a = artifact := by
          simpa [findArtifactLoop, hv, hm] using h
        subst this
        exact ⟨[], rest, rfl, hm, hv, by simp⟩
      · simp only [findArtifactLoop, hv, hm, if_false] at h
        obtain ⟨pre, post, hl, h1, h2, h3⟩ := ih _ h
        exact ⟨a :: pre, post, by rw [hl]; rfl, h1, h2, by
          intro x hx
          rcases List.mem_cons.mp hx with hx | hx
          · subst hx; exact ⟨hv, hm⟩
          · exact h3 x hx⟩

lemma processPPC_accepted
    (validate : OCIArtifact → Config → Option String) (fp : String → String × String)
    (globalPlatform : String) (conf : Config) (plat envName : String)
    (hplat : ¬(plat = ""))
    (hfound : (supportedPlatforms.any fun sp => goContains plat sp) = true) :
    ProcessPlatformAndConfig validate fp globalPlatform conf plat envName =
      match findArtifactLoop validate conf envName conf.OCIArtifact [] with
      | Except.error e => Except.error e
      | Except.ok artifact => Except.ok (artifact, plat) := by
  simp [ProcessPlatformAndConfig, hplat, hfound]

/-- Claim C1: if an artifact that precedes the first label match in
document order fails its own validation (all artifacts before it
passing and not matching), artifact selection fails with that
artifact's name and validation message, even when the requested label
matches a later artifact that is itself valid; it does not skip past
the failing artifact. -/
theorem processPlatformAndConfig_eagerValidation :
    ∀ (validate : OCIArtifact → Config → Option String) (fp : String → String × String)
      (globalPlatform : String) (conf : Config) (plat envName : String)
      (pre : List OCIArtifact) (bad : OCIArtifact) (post : List OCIArtifact) (m : String),
      ¬(plat = "") →
      (supportedPlatforms.any fun sp => goContains plat sp) = true →
      conf.OCIArtifact = pre ++ bad :: post →
      (∀ a ∈ pre, validate a conf = none ∧ ¬(a.Artifact = envName)) →
      validate bad conf = some m →
      ProcessPlatformAndConfig validate fp globalPlatform conf plat envName =
        Except.error (configInvalidMsg bad.Name m) := by
  intro validate fp globalPlatform conf plat envName pre bad post m hplat hfound hconf hpre hbad
  rw [processPPC_accepted validate fp globalPlatform conf plat envName hplat hfound, hconf,
    findArtifactLoop_firstFailure validate conf envName pre bad post [] m hpre hbad]

/-- Witness for claim C1: the first artifact fails validation and the
requested label "svc" matches the second, valid artifact; selection
still fails with the first artifact's name and message. -/
theorem processPlatformAndConfig_eagerValidation_witness :
    ProcessPlatformAndConfig validateBad hostAmd64 "linux/amd64"
        (mkConf [badArtifact, svcArtifact]) "linux/amd64" "svc" =
      Except.error (configInvalidMsg "bad" "boom") :=
  processPlatformAndConfig_eagerValidation validateBad hostAmd64 "linux/amd64"
    (mkConf [badArtifact, svcArtifact]) "linux/amd64" "svc"
    [] badArtifact [svcArtifact] "boom"
    (by decide) (by decide) rfl (by simp) (by decide)

/-- Claim C8: when the platform is accepted, every artifact passes
validation, and no artifact label equals the requested label,
selection fails with an error that enumerates every artifact label
present in the configuration, in document order. -/
theorem processPlatformAndConfig_unknownLabel_enumerates :
    ∀ (validate : OCIArtifact → Config → Option String) (fp : String → String × String)
      (globalPlatform : String) (conf : Config) (plat envName : String),
      ¬(plat = "") →
      (supportedPlatforms.any fun sp => goContains plat sp) = true →
      (∀ a ∈ conf.OCIArtifact, validate a conf = none) →
      (∀ a ∈ conf.OCIArtifact, ¬(a.Artifact = envName)) →
      ProcessPlatformAndConfig validate fp globalPlatform conf plat envName =
        Except.error (noSuchEnvMsg (conf.OCIArtifact.map (fun a => a.Artifact))) := by
  intro validate fp globalPlatform conf plat envName hplat hfound hval hmatch
  rw [processPPC_accepted validate fp globalPlatform conf plat envName hplat hfound,
    findArtifactLoop_noMatch validate conf envName conf.OCIArtifact [] hval hmatch]
  simp

/-- Witness for claim C8: two valid artifacts labelled "badlabel" and
"svc", requested label "web"; the error lists both labels in order. -/
theorem processPlatformAndConfig_unknownLabel_enumerates_witness :
    ProcessPlatformAndConfig validateOK hostAmd64 "linux/amd64"
        (mkConf [badArtifact, svcArtifact]) "linux/amd64" "web" =
      Except.error (noSuchEnvMsg ["badlabel", "svc"]) :=
  processPlatformAndConfig_unknownLabel_enumerates validateOK hostAmd64 "linux/amd64"
    (mkConf [badArtifact, svcArtifact]) "linux/amd64" "web"
    (by decide) (by decide) (by intro a _; rfl) (by decide)

lemma platformNotSupportedMsg_eq (globalPlatform : String) :
    platformNotSupportedMsg globalPlatform =
      "Platform " ++ globalPlatform
        ++ " is not supported. Supported platforms are linux/amd64, linux/arm64" := by
  simp [platformNotSupportedMsg, supportedPlatforms, goJoin, String.append_assoc]

/-- Claim C5: for a non-empty platform string, the platform check of
`ProcessPlatformAndConfig` accepts exactly when the string contains
"linux/amd64" or "linux/arm64" as a substring; when it contains
neither, resolution fails with an error message that lists exactly the
two allowlisted platforms. -/
theorem processPlatformAndConfig_platformAllowlist :
    ∀ (validate : OCIArtifact → Config → Option String) (fp : String → String × String)
      (globalPlatform : String) (conf : Config) (plat envName : String),
      ¬(plat = "") →
      (¬(goContains plat "linux/amd64" = true ∨ goContains plat "linux/arm64" = true) →
        ProcessPlatformAndConfig validate fp globalPlatform conf plat envName =
          Except.error ("Platform " ++ globalPlatform
            ++ " is not supported. Supported platforms are linux/amd64, linux/arm64")) ∧
      ((goContains plat "linux/amd64" = true ∨ goContains plat "linux/arm64" = true) →
        ProcessPlatformAndConfig validate fp globalPlatform conf plat envName =
          match findArtifactLoop validate conf envName conf.OCIArtifact [] with
          | Except.error e => Except.error e
          | Except.ok artifact => Except.ok (artifact, plat)) := by
  intro validate fp globalPlatform conf plat envName hplat
  constructor
  · intro hno
    push_neg at hno
    rw [← platformNotSupportedMsg_eq]
    have h1 : goContains plat "linux/amd64" = false := by
      cases h : goContains plat "linux/amd64" with
      | false => rfl
      | true => exact absurd h hno.1
    have h2 : goContains plat "linux/arm64" = false := by
      cases h : goContains plat "linux/arm64" with
      | false => rfl
      | true => exact absurd h hno.2
    simp [ProcessPlatformAndConfig, hplat, supportedPlatforms, h1, h2]
  · intro hyes
    have hfound : (supportedPlatforms.any fun sp => goContains plat sp) = true := by
      simp only [supportedPlatforms, List.any_cons, List.any_nil, Bool.or_eq_true]
      rcases hyes with h | h
      · exact Or.inl h
      · exact Or.inr (Or.inl h)
    exact processPPC_accepted validate fp globalPlatform conf plat envName hplat hfound

/-- Witness for claim C5: the unsupported platform "windows/amd64" is
rejected with the message listing the two allowlisted platforms, and
"linux/arm64" is accepted and proceeds to artifact lookup. -/
theorem processPlatformAndConfig_platformAllowlist_witness :
    ProcessPlatformAndConfig validateOK hostAmd64 "windows/amd64"
        (mkConf [svcArtifact]) "windows/amd64" "svc" =
      Except.error ("Platform windows/amd64 is not supported. Supported platforms are linux/amd64, linux/arm64") ∧
    ProcessPlatformAndConfig validateOK hostAmd64 "linux/arm64"
        (mkConf [svcArtifact]) "linux/arm64" "svc" =
      Except.ok (svcArtifact, "linux/arm64") := by
  have h1 := processPlatformAndConfig_platformAllowlist validateOK hostAmd64 "windows/amd64"
    (mkConf [svcArtifact]) "windows/amd64" "svc" (by decide)
  have h2 := processPlatformAndConfig_platformAllowlist validateOK hostAmd64 "linux/arm64"
    (mkConf [svcArtifact]) "linux/arm64" "svc" (by decide)
  constructor
  · have := h1.1 (by decide)
    rw [this]
    rfl
  · have := h2.2 (by decide)
    rw [this]
    rfl

/-- Counterexample to claim C2: in a configuration whose first
artifact is valid and matches the requested label "svc" while the
second artifact fails its validation (message "boom"), selection
succeeds and returns the matched artifact; a validation error after
the first match does not make selection fail. -/
theorem processPlatformAndConfig_lateInvalid_cex :
    ProcessPlatformAndConfig validateBad hostAmd64 "linux/amd64"
        (mkConf [svcArtifact, badArtifact]) "linux/amd64" "svc" =
      Except.ok (svcArtifact, "linux/amd64") ∧
    validateBad badArtifact (mkConf [svcArtifact, badArtifact]) = some "boom" ∧
    badArtifact ∈ (mkConf [svcArtifact, badArtifact]).OCIArtifact := by
  refine ⟨rfl, rfl, ?_⟩
  simp [mkConf]

/-- Claim C2 as amended: selection validates artifacts only up to and
including the first label match; whenever selection returns an
artifact, that artifact matches the requested label, it and every
artifact before it in document order pass validation, and no earlier
artifact matches — artifacts after the first match are never
examined and cannot block selection. -/
theorem processPlatformAndConfig_success_validatesUpToMatch :
    ∀ (validate : OCIArtifact → Config → Option String) (fp : String → String × String)
      (globalPlatform : String) (conf : Config) (plat envName : String)
      (artifact : OCIArtifact) (s : String),
      ProcessPlatformAndConfig validate fp globalPlatform conf plat envName =
        Except.ok (artifact, s) →
      ∃ pre post, conf.OCIArtifact = pre ++ artifact :: post ∧
        artifact.Artifact = envName ∧ validate artifact conf = none ∧
        ∀ a ∈ pre, validate a conf = none ∧ ¬(a.Artifact = envName) := by
  intro validate fp globalPlatform conf plat envName artifact s h
  unfold ProcessPlatformAndConfig at h
  by_cases hfound :
      (supportedPlatforms.any fun sp =>
        goContains (if plat = "" then (fp plat).1 ++ "/" ++ (fp plat).2 else plat) sp) = true
  · rw [if_pos hfound] at h
    cases hloop : findArtifactLoop validate conf envName conf.OCIArtifact [] with
    | error e => rw [hloop] at h; exact absurd h (by simp)
    | ok a =>
      rw [hloop] at h
      have ha : a = artifact := by
        have := h
        simp only [Except.ok.injEq, Prod.mk.injEq] at this
        exact this.1
      subst ha
      exact findArtifactLoop_ok validate conf envName conf.OCIArtifact [] a hloop
  · rw [if_neg hfound] at h
    exact absurd h (by simp)

/-- Witness for the amended claim C2: a successful selection yields
the document-order decomposition guaranteed by the theorem. -/
theorem processPlatformAndConfig_success_validatesUpToMatch_witness :
    ∃ pre post,
      (mkConf [svcArtifact, badArtifact]).OCIArtifact = pre ++ svcArtifact :: post ∧
      svcArtifact.Artifact = "svc" ∧
      validateBad svcArtifact (mkConf [svcArtifact, badArtifact]) = none ∧
      ∀ a ∈ pre, validateBad a (mkConf [svcArtifact, badArtifact]) = none ∧
        ¬(a.Artifact = "svc") :=
  processPlatformAndConfig_success_validatesUpToMatch validateBad hostAmd64 "linux/amd64"
    (mkConf [svcArtifact, badArtifact]) "linux/amd64" "svc" svcArtifact "linux/amd64" rfl

/-- Counterexample to claim C9: the platform string "xlinux/amd64" is
accepted (it contains "linux/amd64" as a substring) and is returned
verbatim on success, although it is not the canonical os/arch form of
any supported platform and differs from the detected host platform. -/
theorem processPlatformAndConfig_nonCanonical_cex :
    ProcessPlatformAndConfig validateOK hostAmd64 "xlinux/amd64"
        (mkConf [svcArtifact]) "xlinux/amd64" "svc" =
      Except.ok (svcArtifact, "xlinux/amd64") ∧
    supportedPlatforms.contains "xlinux/amd64" = false ∧
    (("xlinux/amd64" : String)
      == (hostAmd64 "xlinux/amd64").1 ++ "/" ++ (hostAmd64 "xlinux/amd64").2) = false := by
  refine ⟨rfl, by decide, by decide⟩

/-- Claim C9 as amended: on success the returned platform string is
the input platform string unchanged whenever the input is non-empty —
acceptance only requires containing a supported platform as a
substring, and no normalization to a canonical os/arch form is
performed; when the input platform string is empty, the returned
string is the auto-detected host platform in os/arch form. -/
theorem processPlatformAndConfig_returnsInputPlatform :
    ∀ (validate : OCIArtifact → Config → Option String) (fp : String → String × String)
      (globalPlatform : String) (conf : Config) (plat envName : String)
      (artifact : OCIArtifact) (s : String),
      ProcessPlatformAndConfig validate fp globalPlatform conf plat envName =
        Except.ok (artifact, s) →
      (¬(plat = "") → s = plat) ∧
      (plat = "" → s = (fp plat).1 ++ "/" ++ (fp plat).2) := by
  intro validate fp globalPlatform conf plat envName artifact s h
  unfold ProcessPlatformAndConfig at h
  by_cases hfound :
      (supportedPlatforms.any fun sp =>
        goContains (if plat = "" then (fp plat).1 ++ "/" ++ (fp plat).2 else plat) sp) = true
  · rw [if_pos hfound] at h
    cases hloop : findArtifactLoop validate conf envName conf.OCIArtifact [] with
    | error e => rw [hloop] at h; exact absurd h (by simp)
    | ok a =>
      rw [hloop] at h
      simp only [Except.ok.injEq, Prod.mk.injEq] at h
      constructor
      · intro hne
        rw [← h.2, if_neg hne]
      · intro he
        rw [← h.2, if_pos he]
  · rw [if_neg hfound] at h
    exact absurd h (by simp)

/-- Witness for the amended claim C9: with an empty input platform
string the returned platform is the detected host platform
"linux/amd64". -/
theorem processPlatformAndConfig_returnsInputPlatform_witness :
    "linux/amd64" = (hostAmd64 "").1 ++ "/" ++ (hostAmd64 "").2 :=
  (processPlatformAndConfig_returnsInputPlatform validateOK hostAmd64 ""
    (mkConf [svcArtifact]) "" "svc" svcArtifact "linux/amd64" rfl).2 rfl

lemma replaceFirstArtifact_noMatch (oldName : String) (artifact : OCIArtifact)
    (l : List OCIArtifact) (h : ∀ a ∈ l, ¬(a.Name = oldName)) :
    replaceFirstArtifact oldName artifact l = (l, false) := by
  induction l with
  | nil => rfl
  | cons a rest ih =>
    have ha := h a (List.mem_cons_self a rest)
    simp only [replaceFirstArtifact, ha, if_false,
      ih (fun x hx => h x (List.mem_cons_of_mem a hx))]

/-- Claim C7: for every configuration and every old artifact name
absent from the configuration's artifact list, `ModifyConfig` performs
no write to the configuration document, leaves the in-memory
configuration unchanged, and returns no error, for every serializer
and file writer. -/
theorem modifyConfig_noMatch_noop :
    ∀ (serialize : Config → Except String String)
      (writeF : String → String → Except String Unit)
      (oldName : String) (artifact : OCIArtifact) (config : Config),
      (∀ a ∈ config.OCIArtifact, ¬(a.Name = oldName)) →
      ModifyConfig serialize writeF oldName artifact config = (config, false, none) := by
  intro serialize writeF oldName artifact config h
  unfold ModifyConfig
  rw [replaceFirstArtifact_noMatch oldName artifact config.OCIArtifact h]
  rfl

/-- Witness for claim C7: mutating with the absent old name "absent"
leaves the one-artifact configuration untouched, writes nothing and
returns no error. -/
theorem modifyConfig_noMatch_noop_witness :
    ModifyConfig (fun _ => Except.ok "serialized") (fun _ _ => Except.ok ())
        "absent" badArtifact (mkConf [svcArtifact]) =
      (mkConf [svcArtifact], false, none) :=
  modifyConfig_noMatch_noop (fun _ => Except.ok "serialized") (fun _ _ => Except.ok ())
    "absent" badArtifact (mkConf [svcArtifact]) (by decide)

lemma modifyDockerfileWithTag_events (env : RunEnv) (path tag : String) (devDeps : Bool) :
    ∀ e ∈ (modifyDockerfileWithTag env path tag devDeps).1, ∃ p, e = Event.wroteFile p := by
  intro e he
  simp only [modifyDockerfileWithTag] at he
  split at he
  · simp at he
  · split at he
    · simp at he
    · split at he
      · simp at he
      · simp at he
        exact ⟨_, he⟩

lemma ociCmdRun_dfSwap_eq (env : RunEnv) (fl : Flags) (args : List String)
    (hdf : fl.dfSwap = true) :
    ociCmdRun env fl args =
      match args with
      | [] =>
        ([Event.hintMsg "run `bsf oci <environment name>` to build an OCI image"],
         Outcome.exited 1)
      | envName :: _ =>
        match env.readHclFile with
        | Except.error e => ([Event.errorMsg e], Outcome.exited 1)
        | Except.ok conf =>
          match ProcessPlatformAndConfig env.validate env.findPlatform fl.platform conf
              fl.platform envName with
          | Except.error e => ([Event.errorMsg e], Outcome.exited 1)
          | Except.ok _ =>
            if ¬(fl.tag = "") then
              match modifyDockerfileWithTag env fl.path fl.tag fl.devDeps with
              | (evs, Except.error e) => (evs ++ [Event.errorMsg e], Outcome.exited 1)
              | (evs, Except.ok _) =>
                (evs ++ [Event.successMsg ("dockerfile succesfully updated with tag: " ++ fl.tag)],
                 Outcome.exited 1)
            else ([Event.hintMsg "use --tag flag to define a tag"], Outcome.exited 1) := by
  cases args with
  | nil => rfl
  | cons a as =>
    cases hr : env.readHclFile with
    | error e => simp [ociCmdRun, hr]
    | ok conf =>
      cases hp : ProcessPlatformAndConfig env.validate env.findPlatform fl.platform conf
          fl.platform a with
      | error e => simp [ociCmdRun, hr, hp]
      | ok pr =>
        obtain ⟨artifact0, p⟩ := pr
        simp only [ociCmdRun, hr, hp, hdf]
        simp

lemma ociCmdRun_nil (env : RunEnv) (fl : Flags) :
    ociCmdRun env fl [] =
      ([Event.hintMsg "run `bsf oci <environment name>` to build an OCI image"],
       Outcome.exited 1) := rfl

lemma ociCmdRun_cons_readErr (env : RunEnv) (fl : Flags) (a : String) (as : List String)
    (e : String) (hr : env.readHclFile = Except.error e) :
    ociCmdRun env fl (a :: as) = ([Event.errorMsg e], Outcome.exited 1) := by
  simp [ociCmdRun, hr]

lemma ociCmdRun_cons_procErr (env : RunEnv) (fl : Flags) (a : String) (as : List String)
    (conf : Config) (e : String)
    (hr : env.readHclFile = Except.ok conf)
    (hp : ProcessPlatformAndConfig env.validate env.findPlatform fl.platform conf
        fl.platform a = Except.error e) :
    ociCmdRun env fl (a :: as) = ([Event.errorMsg e], Outcome.exited 1) := by
  simp [ociCmdRun, hr, hp]

lemma ociCmdRun_dfSwap_noTag (env : RunEnv) (fl : Flags) (a : String) (as : List String)
    (conf : Config) (artifact0 : OCIArtifact) (p : String)
    (hdf : fl.dfSwap = true) (ht : fl.tag = "")
    (hr : env.readHclFile = Except.ok conf)
    (hp : ProcessPlatformAndConfig env.validate env.findPlatform fl.platform conf
        fl.platform a = Except.ok (artifact0, p)) :
    ociCmdRun env fl (a :: as) =
      ([Event.hintMsg "use --tag flag to define a tag"], Outcome.exited 1) := by
  simp [ociCmdRun, hr, hp, hdf, ht]

lemma ociCmdRun_dfSwap_tagErr (env : RunEnv) (fl : Flags) (a : String) (as : List String)
    (conf : Config) (artifact0 : OCIArtifact) (p : String) (evs : List Event) (e : String)
    (hdf : fl.dfSwap = true) (ht : ¬(fl.tag = ""))
    (hr : env.readHclFile = Except.ok conf)
    (hp : ProcessPlatformAndConfig env.validate env.findPlatform fl.platform conf
        fl.platform a = Except.ok (artifact0, p))
    (hm : modifyDockerfileWithTag env fl.path fl.tag fl.devDeps = (evs, Except.error e)) :
    ociCmdRun env fl (a :: as) = (evs ++ [Event.errorMsg e], Outcome.exited 1) := by
  simp [ociCmdRun, hr, hp, hdf, ht, hm]

lemma ociCmdRun_dfSwap_tagOk (env : RunEnv) (fl : Flags) (a : String) (as : List String)
    (conf : Config) (artifact0 : OCIArtifact) (p : String) (evs : List Event)
    (hdf : fl.dfSwap = true) (ht : ¬(fl.tag = ""))
    (hr : env.readHclFile = Except.ok conf)
    (hp : ProcessPlatformAndConfig env.validate env.findPlatform fl.platform conf
        fl.platform a = Except.ok (artifact0, p))
    (hm : modifyDockerfileWithTag env fl.path fl.tag fl.devDeps = (evs, Except.ok ())) :
    ociCmdRun env fl (a :: as) =
      (evs ++ [Event.successMsg ("dockerfile succesfully updated with tag: " ++ fl.tag)],
       Outcome.exited 1) := by
  simp [ociCmdRun, hr, hp, hdf, ht, hm]

/-- Claim C6 as amended: whenever Dockerfile-patch mode (df-swap) is
requested, the run never applies the tag/name mutation to the
configuration, never invokes the Builder (no build state is reached),
and always terminates with exit code 1; if additionally no tag is
supplied, no file is written, and — provided the run reaches the
mutate-or-patch state, that is, an artifact argument is present, the
configuration loads, and platform and artifact resolution succeed —
the run's whole output is the usage hint for the missing tag. -/
theorem ociCmdRun_dfSwap_terminal :
    ∀ (env : RunEnv) (fl : Flags) (args : List String),
      fl.dfSwap = true →
      (Event.appliedTagMutation ∈ (ociCmdRun env fl args).1 → False) ∧
      (∀ attr, Event.invokedBuilder attr ∈ (ociCmdRun env fl args).1 → False) ∧
      (ociCmdRun env fl args).2 = Outcome.exited 1 ∧
      (fl.tag = "" →
        (∀ p, Event.wroteFile p ∈ (ociCmdRun env fl args).1 → False) ∧
        (∀ envName rest conf artifact plt,
          args = envName :: rest →
          env.readHclFile = Except.ok conf →
          ProcessPlatformAndConfig env.validate env.findPlatform fl.platform conf
              fl.platform envName = Except.ok (artifact, plt) →
          (ociCmdRun env fl args).1 = [Event.hintMsg "use --tag flag to define a tag"])) := by
  intro env fl args hdf
  cases args with
  | nil =>
    rw [ociCmdRun_nil env fl]
    refine ⟨by simp, by simp, rfl, fun _ => ⟨by simp, ?_⟩⟩
    intro envName rest conf artifact plt hargs
    cases hargs
  | cons a as =>
    cases hr : env.readHclFile with
    | error e =>
      rw [ociCmdRun_cons_readErr env fl a as e hr]
      refine ⟨by simp, by simp, rfl, fun _ => ⟨by simp, ?_⟩⟩
      intro envName rest conf artifact plt hargs hconf hproc
      cases hconf
    | ok conf =>
      cases hp : ProcessPlatformAndConfig env.validate env.findPlatform fl.platform conf
          fl.platform a with
      | error e =>
        rw [ociCmdRun_cons_procErr env fl a as conf e hr hp]
        refine ⟨by simp, by simp, rfl, fun _ => ⟨by simp, ?_⟩⟩
        intro envName rest conf2 artifact plt hargs hconf hproc
        injection hargs with h1 h2
        subst h1
        injection hconf with h3
        subst h3
        rw [hp] at hproc
        cases hproc
      | ok pr =>
        obtain ⟨artifact0, p⟩ := pr
        by_cases ht : fl.tag = ""
        · rw [ociCmdRun_dfSwap_noTag env fl a as conf artifact0 p hdf ht hr hp]
          exact ⟨by simp, by simp, rfl, fun _ => ⟨by simp, fun _ _ _ _ _ _ _ _ => rfl⟩⟩
        · rcases hm : modifyDockerfileWithTag env fl.path fl.tag fl.devDeps with ⟨evs, res⟩
          have hev := modifyDockerfileWithTag_events env fl.path fl.tag fl.devDeps
          rw [hm] at hev
          cases res with
          | error e =>
            rw [ociCmdRun_dfSwap_tagErr env fl a as conf artifact0 p evs e hdf ht hr hp hm]
            refine ⟨?_, ?_, rfl, fun htag => absurd htag ht⟩
            · intro h
              rcases List.mem_append.mp h with h | h
              · obtain ⟨q, hq⟩ := hev _ h
                cases hq
              · simp at h
            · intro attr h
              rcases List.mem_append.mp h with h | h
              · obtain ⟨q, hq⟩ := hev _ h
                cases hq
              · simp at h
          | ok u =>
            cases u
            rw [ociCmdRun_dfSwap_tagOk env fl a as conf artifact0 p evs hdf ht hr hp hm]
            refine ⟨?_, ?_, rfl, fun htag => absurd htag ht⟩
            · intro h
              rcases List.mem_append.mp h with h | h
              · obtain ⟨q, hq⟩ := hev _ h
                cases hq
              · simp at h
            · intro attr h
              rcases List.mem_append.mp h with h | h
              · obtain ⟨q, hq⟩ := hev _ h
                cases hq
              · simp at h

/-- Witness for the amended claim C6: with df-swap requested, no tag,
and a fully succeeding environment, the run's whole output is the
missing-tag usage hint and the exit code is 1. -/
theorem ociCmdRun_dfSwap_terminal_witness :
    (ociCmdRun okEnv ⟨"", "", "", "", false, false, false, false, true⟩ ["svc"]).1 =
      [Event.hintMsg "use --tag flag to define a tag"] ∧
    (ociCmdRun okEnv ⟨"", "", "", "", false, false, false, false, true⟩ ["svc"]).2 =
      Outcome.exited 1 := by
  have h := ociCmdRun_dfSwap_terminal okEnv
    ⟨"", "", "", "", false, false, false, false, true⟩ ["svc"] rfl
  exact ⟨(h.2.2.2 rfl).2 "svc" [] (mkConf [svcArtifact]) svcArtifact "linux/amd64"
    rfl rfl rfl, h.2.2.1⟩

/-- Counterexample to claim C6: with df-swap requested and no tag, a
run in which reading the configuration document fails terminates with
only the error print — the missing-tag usage hint is never emitted,
so the hint clause of the claim does not hold of every df-swap run. -/
theorem ociCmdRun_dfSwap_noHint_cex :
    (ociCmdRun noConfigEnv ⟨"", "", "", "", false, false, false, false, true⟩ ["svc"]).1 =
      [Event.errorMsg "open bsf.hcl: no such file or directory"] ∧
    (ociCmdRun noConfigEnv ⟨"", "", "", "", false, false, false, false, true⟩ ["svc"]).1.contains
      (Event.hintMsg "use --tag flag to define a tag") = false ∧
    (ociCmdRun noConfigEnv ⟨"", "", "", "", false, false, false, false, true⟩ ["svc"]).2 =
      Outcome.exited 1 := by
  refine ⟨rfl, ?_, rfl⟩
  decide
